import Mathlib

/-!
# Verification of the music-guesser backend room/turn state machine

Shallow embedding of `src/backend/index.js`: the per-room game state
(`rooms[room]`), its player records, and every Socket.IO event handler that
mutates room state (`join-room`, `submit-song`, `start-game`, `next-turn`,
`reset-game`, `chat-message`, `disconnect`) together with the internal
`startNextTurn` routine and the turn timer callback.

Modelling conventions:
* A JS object used as a string-keyed map (`rooms[room].players`) becomes an
  association list `List (String × Player)`; JS objects preserve string-key
  insertion order, so `Object.keys`/`Object.values` are `map Prod.fst` /
  `map Prod.snd` over that list, and adding a fresh key appends at the end.
* `setTimeout` handles are opaque; `turnTimeoutId : Option Unit` records only
  whether a timer is currently scheduled (`some ()`) or not (`none`, i.e. JS
  `null`).  The timer callback body (index.js lines 673-681) is embedded as
  `timerFires`, and firing is a separate transition of the step relation,
  enabled only while a timer is scheduled.
* Broadcasts (`io.to(room).emit(...)`) are collected as a trace
  `List Event`.  The outbound event vocabulary is taken from the backend's
  `emit` calls plus the `show-answer` event that the frontend
  (`socket.service.ts`) subscribes to.
* The external YouTube/MusicBrainz metadata lookup of `submit-song` is a
  non-deterministic input: the resolved `(title, artist)` pair is a parameter
  of the transition; a failed lookup leaves the room unchanged.
* `Math.random()` inside `Object.keys(players).sort(() => Math.random() - 0.5)`
  is modelled by a stream of independent fair coins (`Math.random() < 0.5`),
  and the engine's comparison sort by insertion sort driven by those coins
  (`sortCmp`); the handler takes the coin list as a parameter.
* Recursion in `startNextTurn` (which in JS can even diverge when every
  queued player lacks a music URL) is made total with an explicit fuel
  parameter; fuel exhaustion returns the state unchanged.
-/

/-- The `hasGuessedCorrectlyThisTurn` sub-object of a player record:
whether this player has already been credited for the current turn's
title resp. artist. -/
structure GuessFlags where
  title : Bool
  artist : Bool
deriving Repr, DecidableEq

/-- A player record, as created by the `join-room` handler
(index.js lines 84-94). -/
structure Player where
  nickname : String
  musicUrl : Option String
  musicStartTime : Nat
  songTitle : Option String
  songArtist : Option String
  score : Nat
  hasUploaded : Bool
  lastGuessTime : Nat
  hasGuessedCorrectlyThisTurn : GuessFlags
deriving Repr, DecidableEq

/-- The player record of a freshly joined player (index.js lines 84-94). -/
def freshPlayer (nick : String) : Player :=
  { nickname := nick
    musicUrl := none
    musicStartTime := 0
    songTitle := none
    songArtist := none
    score := 0
    hasUploaded := false
    lastGuessTime := 0
    hasGuessedCorrectlyThisTurn := { title := false, artist := false } }

/-- `rooms[room].players`: a string-keyed map in insertion order. -/
abbrev PlayerMap := List (String × Player)

/-- `Object.keys(players)`. -/
def keysP (m : PlayerMap) : List String := m.map Prod.fst

/-- `Object.values(players)`. -/
def valuesP (m : PlayerMap) : List Player := m.map Prod.snd

/-- `players[sid]`, `undefined` becoming `none`. -/
def lookupP : PlayerMap → String → Option Player
  | [], _ => none
  | (k, p) :: rest, sid => if k = sid then some p else lookupP rest sid

/-- In-place mutation `players[sid].field = ...`: rewrite the entry at key
`sid` (a no-op when the key is absent, as the JS handlers only mutate
entries they have just looked up). -/
def updateP (m : PlayerMap) (sid : String) (f : Player → Player) : PlayerMap :=
  match m with
  | [] => []
  | (k, p) :: rest =>
    (if k = sid then (k, f p) else (k, p)) :: updateP rest sid f

/-- `Object.values(players).forEach(p => ...)`: mutate every player record. -/
def mapValuesP (m : PlayerMap) (f : Player → Player) : PlayerMap :=
  match m with
  | [] => []
  | (k, p) :: rest => (k, f p) :: mapValuesP rest f

/-- `players[sid] = p`: overwrite in place if the key exists, otherwise
append (insertion order of JS string keys). -/
def setP (m : PlayerMap) (sid : String) (p : Player) : PlayerMap :=
  match m with
  | [] => [(sid, p)]
  | (k, q) :: rest => if k = sid then (k, p) :: rest else (k, q) :: setP rest sid p

/-- `delete players[sid]`. -/
def removeP (m : PlayerMap) (sid : String) : PlayerMap :=
  match m with
  | [] => []
  | (k, p) :: rest => if k = sid then removeP rest sid else (k, p) :: removeP rest sid

/-- A room record, as created by the `join-room` handler
(index.js lines 60-71), minus the constant-per-room `code`. -/
structure Room where
  players : PlayerMap
  hostId : String
  gameStarted : Bool
  gameEnded : Bool
  turnQueue : List String
  currentTurnIndex : Nat
  totalTurnsPlayed : Nat
  maxTurns : Nat
  turnDuration : Nat
  turnTimeoutId : Option Unit
deriving Repr, DecidableEq

/-- The room produced by the first successful `join-room` on a fresh room
code: the room object of index.js lines 60-71 with the creator added as
first player and host. -/
def initRoom (sid nick : String) : Room :=
  { players := [(sid, freshPlayer nick)]
    hostId := sid
    gameStarted := false
    gameEnded := false
    turnQueue := []
    currentTurnIndex := 0
    totalTurnsPlayed := 0
    maxTurns := 0
    turnDuration := 30
    turnTimeoutId := none }

/-- `JS array.includes(x)` on the turn queue. -/
def queueHas (q : List String) (sid : String) : Bool := q.contains sid

/-- JS substring test `hay.includes(sub)` on char sequences
(`"".includes` of the empty string is `true`). -/
def charsInclude : List Char → List Char → Bool
  | [], sub => sub.isEmpty
  | h :: t, sub => sub.isPrefixOf (h :: t) || charsInclude t sub

/-- JS `hay.includes(sub)` on strings. -/
def strIncludes (hay sub : String) : Bool := charsInclude hay.data sub.data

/-- JS `s.toLowerCase()` (ASCII case mapping, applied per character). -/
def toLowerStr (s : String) : String := String.mk (s.data.map Char.toLower)

/-- JS `s.trim()`: strip leading and trailing whitespace. -/
def trimStr (s : String) : String :=
  String.mk (((s.data.dropWhile Char.isWhitespace).reverse.dropWhile
    Char.isWhitespace).reverse)

/-- `text.toLowerCase().trim()` — the normalization applied to both the
chat message and the stored title/artist (index.js lines 434-436). -/
def normalizeText (s : String) : String := trimStr (toLowerStr s)

/-- One entry of the `scores` payload of a `game-ended` broadcast:
nickname and score. -/
abbrev ScoreEntry := String × Nat

/-- Stable insertion into a descending-by-score list, modelling the stable
JS `sort((a, b) => b.score - a.score)`. -/
def insertScoreDesc (x : ScoreEntry) : List ScoreEntry → List ScoreEntry
  | [] => [x]
  | y :: ys => if x.2 ≤ y.2 then y :: insertScoreDesc x ys else x :: y :: ys

/-- `Object.values(players).map(p => ({nickname, score})).sort(desc)`. -/
def scoresOf (m : PlayerMap) : List ScoreEntry :=
  (m.map (fun kv => (kv.2.nickname, kv.2.score))).foldr insertScoreDesc []

/-- The outbound broadcast vocabulary: every `io.to(room).emit` of the
backend, plus `show-answer`, which the frontend (`socket.service.ts`
line 144) subscribes to but the backend never emits. -/
inductive Event where
  | roomUpdate (players : List (String × Bool × Nat)) (hostId : String)
      (gameStarted gameEnded : Bool)
  | gameStartedEv (turnQueue : List String) (turnDuration : Nat)
  | turnChanged (currentPlayerId : String) (nickname : String)
      (songTitle songArtist : Option String)
  | gameEndedEv (scores : List ScoreEntry)
  | chatMsg (nickname message : String)
      (isGuessResult titleCorrect artistCorrect : Bool)
  | showAnswer
deriving Repr, DecidableEq

/-- The `room-update` payload built by `getRoomUpdate`
(index.js lines 577-589). -/
def getRoomUpdate (r : Room) : Event :=
  Event.roomUpdate
    (r.players.map (fun kv => (kv.2.nickname, kv.2.hasUploaded, kv.2.score)))
    r.hostId r.gameStarted r.gameEnded

/-- The room state after the game-over branch shared by `startNextTurn`
and the disconnect handler: `gameEnded = true`, `gameStarted = false`,
timer cleared. -/
def endGameState (r : Room) : Room :=
  { r with gameEnded := true, gameStarted := false, turnTimeoutId := none }

/-- `startNextTurn(room)` (index.js lines 592-695), with explicit fuel for
the recursive retry paths (stale queue entry, player without a music URL);
fuel exhaustion returns the state unchanged.  Returns the new room state
and the trace of broadcasts. -/
def startNextTurn : Nat → Room → Room × List Event
  | 0, r => (r, [])
  | fuel + 1, r =>
    -- primary guards (line 597)
    if r.gameEnded = true ∨ r.gameStarted = false ∨ r.turnQueue = [] then
      (r, [])
    else
      -- clear any previous turn timer (lines 603-606),
      -- increment totalTurnsPlayed (line 609)
      let r1 : Room :=
        { r with turnTimeoutId := none, totalTurnsPlayed := r.totalTurnsPlayed + 1 }
      -- max-turns check (line 613)
      if r1.maxTurns < r1.totalTurnsPlayed then
        (endGameState r1,
          [Event.gameEndedEv (scoresOf r1.players), getRoomUpdate (endGameState r1)])
      else
        match r1.turnQueue.get? r1.currentTurnIndex with
        | some pid =>
          match lookupP r1.players pid with
          | none =>
            -- stale queue entry (lines 635-661)
            let q := r1.turnQueue.filter (fun id => id ≠ pid)
            if q = [] then
              (endGameState r1,
                [Event.gameEndedEv (scoresOf r1.players),
                 getRoomUpdate (endGameState r1)])
            else
              startNextTurn fuel
                { r1 with turnQueue := q,
                          currentTurnIndex := r1.currentTurnIndex % q.length }
          | some p =>
            if p.musicUrl = none then
              -- player without a song: skip (lines 664-669)
              startNextTurn fuel
                { r1 with currentTurnIndex :=
                    (r1.currentTurnIndex + 1) % r1.turnQueue.length }
            else
              -- schedule the turn timer and broadcast the turn change
              -- (lines 672-694)
              ({ r1 with turnTimeoutId := some () },
                [Event.turnChanged pid p.nickname p.songTitle p.songArtist])
        | none =>
          -- JS: `turnQueue[currentTurnIndex]` is `undefined`, the player
          -- lookup fails, and the filter on `id !== undefined` removes
          -- nothing, so the retry re-enters with the index wrapped.
          startNextTurn fuel
            { r1 with currentTurnIndex :=
                r1.currentTurnIndex % r1.turnQueue.length }

/-- The `join-room` handler (index.js lines 47-101) for an already-existing
room; room creation on a fresh code is `initRoom`.  Returns the new room
state, the broadcast trace, and the ack's `success` flag. -/
def joinRoomH (r : Room) (sid nick : String) : Room × List Event × Bool :=
  if nick = "" then (r, [], false)
  else if 20 < nick.length then (r, [], false)
  else if (valuesP r.players).any
      (fun p => toLowerStr p.nickname = toLowerStr nick) then (r, [], false)
  else
    let r' := { r with players := setP r.players sid (freshPlayer nick) }
    (r', [getRoomUpdate r'], true)

/-- The success path of the `submit-song` handler (index.js lines 104-200):
the external YouTube/MusicBrainz lookup resolved the submitted URL to
`(title, artist)` and `startT`; every failure path of the handler leaves the
room unchanged and is subsumed by rejection. -/
def submitSongH (r : Room) (sid url : String) (startT : Nat)
    (title artist : String) : Room × List Event × Bool :=
  if r.gameStarted = true then (r, [], false)
  else if r.gameEnded = true then (r, [], false)
  else
    match lookupP r.players sid with
    | none => (r, [], false)
    | some _ =>
      let r' := { r with players := updateP r.players sid (fun p =>
        { p with musicUrl := some url, musicStartTime := startT,
                 songTitle := some title, songArtist := some artist,
                 hasUploaded := true }) }
      (r', [getRoomUpdate r'], true)

/-- One comparator-driven insertion step of the shuffle model: each coin is
one call of the comparator `() => Math.random() - 0.5`, `true` meaning the
comparator returned a negative value (`Math.random() < 0.5`, probability
1/2) so the inserted element sorts before the probed one.  Returns the new
list and the unconsumed coins. -/
def insertCmp (x : String) : List String → List Bool → List String × List Bool
  | [], coins => ([x], coins)
  | y :: ys, [] => (x :: y :: ys, [])
  | y :: ys, c :: cs =>
    if c then (x :: y :: ys, cs)
    else
      (y :: (insertCmp x ys cs).1, (insertCmp x ys cs).2)

/-- The engine's comparison sort under a random comparator, modelled as
insertion sort driven by a list of fair coins. -/
def sortCmp : List String → List Bool → List String × List Bool
  | [], coins => ([], coins)
  | x :: xs, coins => insertCmp x (sortCmp xs coins).1 (sortCmp xs coins).2

/-- `Object.keys(players).sort(() => Math.random() - 0.5)`
(index.js line 222): the turn-order shuffle. -/
def randomSortShuffle (l : List String) (coins : List Bool) : List String :=
  (sortCmp l coins).1

/-- The field assignments of the `start-game` handler
(index.js lines 220-232), before `startNextTurn` runs. -/
def startGameSetup (r : Room) (dur : Nat) (coins : List Bool) : Room :=
  let q := randomSortShuffle (keysP r.players) coins
  { r with gameStarted := true, gameEnded := false,
           turnQueue := q, currentTurnIndex := 0,
           totalTurnsPlayed := 0, maxTurns := q.length,
           turnDuration := dur, turnTimeoutId := none,
           players := mapValuesP r.players (fun p =>
             { p with hasGuessedCorrectlyThisTurn :=
                 { title := false, artist := false } }) }

/-- The `start-game` handler (index.js lines 203-244).  `dur` is the parsed
`turnDuration` argument; a non-numeric argument is subsumed by the
out-of-range rejection. -/
def startGameH (fuel : Nat) (r : Room) (sid : String) (dur : Int)
    (coins : List Bool) : Room × List Event × Bool :=
  if sid ≠ r.hostId then (r, [], false)
  else if ¬ (valuesP r.players).all (fun p => p.hasUploaded) then (r, [], false)
  else if r.gameStarted = true then (r, [], false)
  else if r.gameEnded = true then (r, [], false)
  else if ¬ (10 ≤ dur ∧ dur ≤ 120) then (r, [], false)
  else
    let r1 := startGameSetup r dur.toNat coins
    ((startNextTurn fuel r1).1,
      Event.gameStartedEv r1.turnQueue r1.turnDuration :: (startNextTurn fuel r1).2,
      true)

/-- Reset of every player's `hasGuessedCorrectlyThisTurn`, as done by the
`next-turn` handler and the turn timer callback. -/
def clearGuessFlags (m : PlayerMap) : PlayerMap :=
  mapValuesP m (fun p =>
    { p with hasGuessedCorrectlyThisTurn := { title := false, artist := false } })

/-- The `next-turn` handler (index.js lines 247-275): host-triggered skip.
Clears the pending timer, resets every player's per-turn guess flags,
advances the index modulo the queue length, and re-enters `startNextTurn`. -/
def nextTurnH (fuel : Nat) (r : Room) (sid : String) : Room × List Event × Bool :=
  if sid ≠ r.hostId then (r, [], false)
  else if r.gameStarted = false then (r, [], false)
  else if r.gameEnded = true then (r, [], false)
  else
    let r1 := { r with turnTimeoutId := none,
                       players := clearGuessFlags r.players,
                       currentTurnIndex :=
                         (r.currentTurnIndex + 1) % r.turnQueue.length }
    ((startNextTurn fuel r1).1, (startNextTurn fuel r1).2, true)

/-- The per-player reset of the `reset-game` handler
(index.js lines 303-313). -/
def resetPlayer (p : Player) : Player :=
  { p with hasUploaded := false, musicUrl := none, musicStartTime := 0,
           songTitle := none, songArtist := none, score := 0,
           lastGuessTime := 0,
           hasGuessedCorrectlyThisTurn := { title := false, artist := false } }

/-- The `reset-game` handler (index.js lines 278-319).  The only
preconditions in the code are that the room exists and the requester is the
host; there is no check on the game phase. -/
def resetGameH (r : Room) (sid : String) : Room × List Event × Bool :=
  if sid ≠ r.hostId then (r, [], false)
  else
    let r1 : Room :=
      { players := mapValuesP r.players resetPlayer
        hostId := r.hostId
        gameStarted := false
        gameEnded := false
        turnQueue := []
        currentTurnIndex := 0
        totalTurnsPlayed := 0
        maxTurns := 0
        turnDuration := 30
        turnTimeoutId := none }
    (r1, [getRoomUpdate r1], true)

/-- The turn timer callback (index.js lines 673-681): reset every player's
per-turn guess flags, advance the index modulo the queue length, and
re-enter `startNextTurn`.  It broadcasts nothing of its own. -/
def timerFires (fuel : Nat) (r : Room) : Room × List Event :=
  let r1 := { r with players := clearGuessFlags r.players,
                     currentTurnIndex :=
                       (r.currentTurnIndex + 1) % r.turnQueue.length }
  startNextTurn fuel r1

/-- The `chat-message` handler (index.js lines 398-497).  The message is
always broadcast; scoring applies only when the game is running, the sender
is not the current music owner, and the owner's title and artist are
resolved. -/
def chatMessageH (r : Room) (sid msg : String) : Room × List Event × Bool :=
  match lookupP r.players sid with
  | none => (r, [], false)
  | some sender =>
    let guessCtx : Option Player :=
      if r.gameStarted = true ∧ r.gameEnded = false ∧ r.turnQueue ≠ [] then
        match r.turnQueue.get? r.currentTurnIndex with
        | some oid =>
          if sid ≠ oid then
            match lookupP r.players oid with
            | some owner =>
              if owner.songTitle ≠ none ∧ owner.songArtist ≠ none then
                some owner
              else none
            | none => none
          else none
        | none => none
      else none
    match guessCtx with
    | none => (r, [Event.chatMsg sender.nickname msg false false false], true)
    | some owner =>
      let normalizedMessage := normalizeText msg
      let correctTitle := normalizeText (owner.songTitle.getD "")
      let correctArtist := normalizeText (owner.songArtist.getD "")
      let titleGuessed : Bool :=
        !sender.hasGuessedCorrectlyThisTurn.title
          && decide (0 < correctTitle.length)
          && strIncludes normalizedMessage correctTitle
      let artistGuessed : Bool :=
        !sender.hasGuessedCorrectlyThisTurn.artist
          && decide (0 < correctArtist.length)
          && strIncludes normalizedMessage correctArtist
      let sender' : Player :=
        { sender with
            score := sender.score + (if titleGuessed then 1 else 0)
                       + (if artistGuessed then 1 else 0)
            hasGuessedCorrectlyThisTurn :=
              { title := sender.hasGuessedCorrectlyThisTurn.title || titleGuessed
                artist := sender.hasGuessedCorrectlyThisTurn.artist || artistGuessed } }
      let r' := { r with players := updateP r.players sid (fun _ => sender') }
      let ev := Event.chatMsg sender.nickname msg
        (titleGuessed || artistGuessed) titleGuessed artistGuessed
      if titleGuessed || artistGuessed then
        (r', [getRoomUpdate r', ev], true)
      else
        (r', [ev], true)

/-- The `disconnect` handler (index.js lines 322-395) restricted to one
room: `none` means the last player left and the room was deleted.  A `sid`
not present in the room leaves it untouched (the JS loop skips it). -/
def disconnectH (fuel : Nat) (r : Room) (sid : String) :
    Option (Room × List Event) :=
  match lookupP r.players sid with
  | none => some (r, [])
  | some _ =>
    let players' := removeP r.players sid
    if players' = [] then none
    else
      let host' := if r.hostId = sid then (keysP players').headD "" else r.hostId
      let rA := { r with players := players', hostId := host' }
      if rA.gameStarted = true ∧ rA.gameEnded = false
          ∧ queueHas rA.turnQueue sid = true then
        let wasCurrent := rA.turnQueue.get? rA.currentTurnIndex = some sid
        let q := rA.turnQueue.filter (fun id => id ≠ sid)
        if q = [] then
          let rEnd := endGameState { rA with turnQueue := q }
          some (rEnd,
            [Event.gameEndedEv (scoresOf players'), getRoomUpdate rEnd])
        else
          let idx' := if q.length ≤ rA.currentTurnIndex then 0
                      else rA.currentTurnIndex
          let rB := { rA with turnQueue := q, currentTurnIndex := idx' }
          if wasCurrent then
            some ((startNextTurn fuel rB).1,
              (startNextTurn fuel rB).2 ++ [getRoomUpdate (startNextTurn fuel rB).1])
          else
            some (rB, [getRoomUpdate rB])
      else
        some (rA, [getRoomUpdate rA])

/-- One transition of the room state machine: any inbound handler applied
with arbitrary arguments, or the turn timer firing while scheduled.  The
random shuffle's coins, the fuel of the recursive `startNextTurn`, and the
externally resolved song metadata are universally quantified inputs. -/
inductive Step : Room → Room → Prop
  | joinRoom (r : Room) (sid nick : String) (r' : Room)
      (h : r' = (joinRoomH r sid nick).1) : Step r r'
  | submitSong (r : Room) (sid url : String) (startT : Nat)
      (title artist : String) (r' : Room)
      (h : r' = (submitSongH r sid url startT title artist).1) : Step r r'
  | startGame (r : Room) (fuel : Nat) (sid : String) (dur : Int)
      (coins : List Bool) (r' : Room)
      (h : r' = (startGameH fuel r sid dur coins).1) : Step r r'
  | nextTurn (r : Room) (fuel : Nat) (sid : String) (r' : Room)
      (h : r' = (nextTurnH fuel r sid).1) : Step r r'
  | resetGame (r : Room) (sid : String) (r' : Room)
      (h : r' = (resetGameH r sid).1) : Step r r'
  | chatMessage (r : Room) (sid msg : String) (r' : Room)
      (h : r' = (chatMessageH r sid msg).1) : Step r r'
  | disconnect (r : Room) (fuel : Nat) (sid : String) (r' : Room)
      (evs : List Event)
      (h : disconnectH fuel r sid = some (r', evs)) : Step r r'
  | timerExpire (r : Room) (fuel : Nat) (r' : Room)
      (hpend : r.turnTimeoutId ≠ none)
      (h : r' = (timerFires fuel r).1) : Step r r'

/-- Reachable room states: a room comes into existence on its first
successful `join-room` (which requires a non-empty nickname of at most 20
characters) and evolves by `Step`. -/
inductive Reachable : Room → Prop
  | init (sid nick : String) (hne : nick ≠ "") (hlen : nick.length ≤ 20) :
      Reachable (initRoom sid nick)
  | step {r r' : Room} : Reachable r → Step r r' → Reachable r'

/-! ## Concrete executions used as witnesses and counterexamples -/

/-- A fresh room created by `join-room` from connection `"s1"`, nickname
`"alice"`. -/
def roomA : Room := initRoom "s1" "alice"

/-- `roomA` after `"s1"` successfully submits a song resolved to
title `"hello"`, artist `"adele"`. -/
def roomB : Room := (submitSongH roomA "s1" "u1" 0 "hello" "adele").1

/-- `roomB` after the host starts the game (duration 30s); the single-player
game is in progress on turn 1 of 1. -/
def roomC : Room := (startGameH 5 roomB "s1" 30 []).1

/-- `roomC` after the host skips the only turn: the game ends with
`totalTurnsPlayed = 2` and `maxTurns = 1`. -/
def roomD : Room := (nextTurnH 5 roomC "s1").1

/-- `roomA` after `"s2"` (`"bob"`) joins. -/
def t1 : Room := (joinRoomH roomA "s2" "bob").1

/-- `t1` after `"s1"` submits (`"hello"` / `"adele"`). -/
def t2 : Room := (submitSongH t1 "s1" "u1" 0 "hello" "adele").1

/-- `t2` after `"s2"` submits (`"toxic"` / `"britney spears"`). -/
def t3 : Room := (submitSongH t2 "s2" "u2" 0 "toxic" "britney spears").1

/-- `t3` after the host starts the game; the coin `true` makes the shuffle
keep the key order, so the queue is `["s1", "s2"]` and `"s1"` holds turn 1. -/
def t4 : Room := (startGameH 5 t3 "s1" 30 [true]).1

/-- `t4` after a host skip: turn 2 of 2, `"s2"` holds the turn. -/
def t5 : Room := (nextTurnH 5 t4 "s1").1

/-- `t5` after a further host skip: the game is over (`gameEnded`), and the
turn queue still holds both ids. -/
def t6 : Room := (nextTurnH 5 t5 "s1").1

/-- `t6` after `"s2"` disconnects: the room keeps only `"s1"` but the stale
turn queue still mentions `"s2"`. -/
def t7 : Room := ((disconnectH 5 t6 "s2").getD (t6, [])).1

/-- The broadcast trace of that disconnect. -/
def t7evs : List Event := ((disconnectH 5 t6 "s2").getD (t6, [])).2

/-- Three-player room: `"s2"`/`"bob"` joins `roomA`. -/
def u1 : Room := (joinRoomH roomA "s2" "bob").1

/-- `"s3"`/`"carol"` joins. -/
def u2 : Room := (joinRoomH u1 "s3" "carol").1

/-- All three players submit songs. -/
def u3 : Room := (submitSongH u2 "s1" "u1" 0 "hello" "adele").1

/-- Second submission. -/
def u4 : Room := (submitSongH u3 "s2" "u2" 0 "toxic" "britney spears").1

/-- Third submission: a three-player lobby with every player uploaded. -/
def u5 : Room := (submitSongH u4 "s3" "u3" 0 "rolling in the deep" "adele").1

/-- The host starts the three-player game; coins `[true, true]` keep the key
order, so the queue is `["s1", "s2", "s3"]`, turn 1 of 3, holder `"s1"`. -/
def u6 : Room := (startGameH 6 u5 "s1" 30 [true, true]).1

/-- Turn 2 of 3, holder `"s2"`. -/
def u7 : Room := (nextTurnH 6 u6 "s1").1

/-- Turn 3 of 3, holder `"s3"`. -/
def u8 : Room := (nextTurnH 6 u7 "s1").1

/-- `u8` after the current turn-holder `"s3"` disconnects during the last
turn: the game ends. -/
def u9 : Room := ((disconnectH 6 u8 "s3").getD (u8, [])).1

/-- The broadcast trace of that disconnect. -/
def u9evs : List Event := ((disconnectH 6 u8 "s3").getD (u8, [])).2

/-- All coin sequences of length `n`, each of probability `2⁻ⁿ` under the
fair-coin model of `Math.random() - 0.5` comparator calls. -/
def boolLists : Nat → List (List Bool)
  | 0 => [[]]
  | n + 1 => (boolLists n).map (List.cons true) ++ (boolLists n).map (List.cons false)


/-- Follows the spec's words (section 8, round-trip property): "a freshly
created room containing the same players" — the same connection ids and
nicknames with all per-game player state at its join-time defaults, the
host preserved, and the room-level fields at their creation-time defaults
(`turnDuration` 30, no queue, no timer, Lobby phase). -/
def specFreshRoom (r : Room) : Room :=
  { players := r.players.map (fun kv => (kv.1, freshPlayer kv.2.nickname))
    hostId := r.hostId
    gameStarted := false
    gameEnded := false
    turnQueue := []
    currentTurnIndex := 0
    totalTurnsPlayed := 0
    maxTurns := 0
    turnDuration := 30
    turnTimeoutId := none }

/-- The state mutation shared by the turn timer callback and the `next-turn`
handler before re-entering `startNextTurn`: reset every player's per-turn
guess flags and advance the index modulo the queue length.  (`next-turn`
additionally clears `turnTimeoutId` first.) -/
def advanceTurnState (r : Room) : Room :=
  { r with players := clearGuessFlags r.players,
           currentTurnIndex :=
             (r.currentTurnIndex + 1) % r.turnQueue.length }

/-! ## Association-list lemmas -/

theorem keysP_updateP (m : PlayerMap) (sid : String) (f : Player → Player) :
    keysP (updateP m sid f) = keysP m := by
  induction m with
  | nil => rfl
  | cons kv rest ih =>
    obtain ⟨k, p⟩ := kv
    by_cases h : k = sid <;> simp [updateP, keysP, h] <;>
      simpa [keysP] using ih

theorem keysP_mapValuesP (m : PlayerMap) (f : Player → Player) :
    keysP (mapValuesP m f) = keysP m := by
  induction m with
  | nil => rfl
  | cons kv rest ih =>
    obtain ⟨k, p⟩ := kv
    simp [mapValuesP, keysP] at *
    exact ih

theorem keysP_clearGuessFlags (m : PlayerMap) :
    keysP (clearGuessFlags m) = keysP m := keysP_mapValuesP m _

theorem lookupP_updateP_self (m : PlayerMap) (sid : String) (f : Player → Player) :
    lookupP (updateP m sid f) sid = (lookupP m sid).map f := by
  induction m with
  | nil => rfl
  | cons kv rest ih =>
    obtain ⟨k, p⟩ := kv
    simp only [updateP]
    by_cases h : k = sid
    · rw [if_pos h]
      simp only [lookupP, if_pos h]
      rfl
    · rw [if_neg h]
      simp only [lookupP, if_neg h]
      exact ih

theorem lookupP_updateP_ne (m : PlayerMap) (sid k : String) (f : Player → Player)
    (h : k ≠ sid) : lookupP (updateP m sid f) k = lookupP m k := by
  induction m with
  | nil => rfl
  | cons kv rest ih =>
    obtain ⟨a, p⟩ := kv
    simp only [updateP]
    by_cases ha : a = sid
    · rw [if_pos ha]
      have hak : a ≠ k := fun hh => h (hh ▸ ha)
      simp only [lookupP, if_neg hak]
      exact ih
    · rw [if_neg ha]
      by_cases hak : a = k
      · simp only [lookupP, if_pos hak]
      · simp only [lookupP, if_neg hak]
        exact ih

theorem lookupP_mapValuesP (m : PlayerMap) (f : Player → Player) (k : String) :
    lookupP (mapValuesP m f) k = (lookupP m k).map f := by
  induction m with
  | nil => rfl
  | cons kv rest ih =>
    obtain ⟨a, p⟩ := kv
    simp only [mapValuesP]
    by_cases ha : a = k
    · simp only [lookupP, if_pos ha]
      rfl
    · simp only [lookupP, if_neg ha]
      exact ih

theorem lookupP_mem (m : PlayerMap) (k : String) (p : Player)
    (h : lookupP m k = some p) : (k, p) ∈ m := by
  induction m with
  | nil => simp [lookupP] at h
  | cons kv rest ih =>
    obtain ⟨a, q⟩ := kv
    by_cases ha : a = k
    · rw [lookupP, if_pos ha] at h
      cases h
      simp [ha]
    · rw [lookupP, if_neg ha] at h
      exact List.mem_cons_of_mem _ (ih h)

theorem mem_keysP_cons (a : String) (q : Player) (rest : PlayerMap) (k : String) :
    k ∈ keysP ((a, q) :: rest) ↔ k = a ∨ k ∈ keysP rest := by
  simp only [keysP, List.map_cons, List.mem_cons]

theorem lookupP_isSome_of_mem_keysP (m : PlayerMap) (k : String)
    (h : k ∈ keysP m) : (lookupP m k).isSome := by
  induction m with
  | nil => simp [keysP] at h
  | cons kv rest ih =>
    obtain ⟨a, q⟩ := kv
    by_cases ha : a = k
    · rw [lookupP, if_pos ha]; rfl
    · rw [lookupP, if_neg ha]
      rcases (mem_keysP_cons a q rest k).1 h with h' | h'
      · exact absurd h'.symm ha
      · exact ih h'

theorem mem_keysP_removeP (m : PlayerMap) (sid k : String)
    (hk : k ∈ keysP m) (hne : k ≠ sid) : k ∈ keysP (removeP m sid) := by
  induction m with
  | nil => simp [keysP] at hk
  | cons kv rest ih =>
    obtain ⟨a, q⟩ := kv
    rcases (mem_keysP_cons a q rest k).1 hk with h' | h'
    · have ha : a ≠ sid := fun hh => hne (h' ▸ hh)
      rw [removeP, if_neg ha]
      exact (mem_keysP_cons a q _ k).2 (Or.inl h')
    · by_cases ha : a = sid
      · rw [removeP, if_pos ha]
        exact ih h'
      · rw [removeP, if_neg ha]
        exact (mem_keysP_cons a q _ k).2 (Or.inr (ih h'))

theorem keysP_removeP_not_mem (m : PlayerMap) (sid : String) :
    sid ∉ keysP (removeP m sid) := by
  induction m with
  | nil => simp [removeP, keysP]
  | cons kv rest ih =>
    obtain ⟨a, q⟩ := kv
    by_cases ha : a = sid
    · rw [removeP, if_pos ha]; exact ih
    · rw [removeP, if_neg ha]
      intro hmem
      rcases (mem_keysP_cons a q _ sid).1 hmem with h | h
      · exact ha h.symm
      · exact ih h

theorem removeP_eq_self_of_not_mem (m : PlayerMap) (sid : String)
    (h : sid ∉ keysP m) : removeP m sid = m := by
  induction m with
  | nil => rfl
  | cons kv rest ih =>
    obtain ⟨a, q⟩ := kv
    rw [mem_keysP_cons] at h
    push_neg at h
    rw [removeP, if_neg (fun ha => h.1 ha.symm), ih h.2]

theorem length_removeP_of_mem (m : PlayerMap) (sid : String)
    (hnd : (keysP m).Nodup) (hk : sid ∈ keysP m) :
    (removeP m sid).length + 1 = m.length := by
  induction m with
  | nil => simp [keysP] at hk
  | cons kv rest ih =>
    obtain ⟨a, q⟩ := kv
    have hnd' : a ∉ keysP rest ∧ (keysP rest).Nodup := by
      simpa [keysP, List.nodup_cons] using hnd
    by_cases ha : a = sid
    · rw [removeP, if_pos ha]
      rw [removeP_eq_self_of_not_mem rest sid (ha ▸ hnd'.1)]
      simp
    · rcases (mem_keysP_cons a q rest sid).1 hk with h' | h'
      · exact absurd h'.symm ha
      · rw [removeP, if_neg ha]
        simp only [List.length_cons]
        rw [← ih hnd'.2 h']

theorem removeP_subset (m : PlayerMap) (sid : String) :
    ∀ kv ∈ removeP m sid, kv ∈ m := by
  induction m with
  | nil => simp [removeP]
  | cons kv0 rest ih =>
    obtain ⟨a, q⟩ := kv0
    intro kv hkv
    by_cases ha : a = sid
    · rw [removeP, if_pos ha] at hkv
      exact List.mem_cons_of_mem _ (ih kv hkv)
    · rw [removeP, if_neg ha] at hkv
      rcases List.mem_cons.1 hkv with h | h
      · exact h ▸ List.mem_cons_self _ _
      · exact List.mem_cons_of_mem _ (ih kv h)

theorem mapValuesP_ne_nil (m : PlayerMap) (f : Player → Player) (h : m ≠ []) :
    mapValuesP m f ≠ [] := by
  cases m with
  | nil => exact absurd rfl h
  | cons kv rest => obtain ⟨a, q⟩ := kv; simp [mapValuesP]

theorem updateP_ne_nil (m : PlayerMap) (sid : String) (f : Player → Player)
    (h : m ≠ []) : updateP m sid f ≠ [] := by
  cases m with
  | nil => exact absurd rfl h
  | cons kv rest => obtain ⟨a, q⟩ := kv; simp [updateP]

theorem setP_ne_nil (m : PlayerMap) (sid : String) (p : Player) :
    setP m sid p ≠ [] := by
  cases m with
  | nil => simp [setP]
  | cons kv rest =>
    obtain ⟨a, q⟩ := kv
    rw [setP]
    split <;> simp

theorem mem_keysP_setP (m : PlayerMap) (sid k : String) (p : Player)
    (h : k ∈ keysP m) : k ∈ keysP (setP m sid p) := by
  induction m with
  | nil => simp [keysP] at h
  | cons kv rest ih =>
    obtain ⟨a, q⟩ := kv
    rcases (mem_keysP_cons a q rest k).1 h with h' | h'
    · by_cases ha : a = sid
      · rw [setP, if_pos ha]
        exact (mem_keysP_cons a p _ k).2 (Or.inl (ha ▸ h'))
      · rw [setP, if_neg ha]
        exact (mem_keysP_cons a q _ k).2 (Or.inl h')
    · by_cases ha : a = sid
      · rw [setP, if_pos ha]
        exact (mem_keysP_cons a p _ k).2 (Or.inr h')
      · rw [setP, if_neg ha]
        exact (mem_keysP_cons a q _ k).2 (Or.inr (ih h'))

/-! ## The shuffle produces a permutation of its input -/

theorem insertCmp_perm (x : String) (l : List String) (coins : List Bool) :
    (insertCmp x l coins).1.Perm (x :: l) := by
  induction l generalizing coins with
  | nil => cases coins <;> simp [insertCmp]
  | cons y ys ih =>
    cases coins with
    | nil => simp [insertCmp]
    | cons c cs =>
      cases c with
      | true => simp [insertCmp]
      | false =>
        simp only [insertCmp]
        rw [if_neg (by simp)]
        exact (List.Perm.cons y (ih cs)).trans (List.Perm.swap x y ys)

theorem sortCmp_perm (l : List String) (coins : List Bool) :
    (sortCmp l coins).1.Perm l := by
  induction l generalizing coins with
  | nil => simp [sortCmp]
  | cons x xs ih =>
    simp only [sortCmp]
    exact (insertCmp_perm x _ _).trans (List.Perm.cons x (ih _))

theorem randomSortShuffle_perm (l : List String) (coins : List Bool) :
    (randomSortShuffle l coins).Perm l := sortCmp_perm l coins

/-! ## The inductive invariant of reachable room states -/

/-- The state invariant maintained by every handler: the room is never
empty (empty rooms are deleted); while the game is in progress the current
turn index is inside the queue and the turn counter has not passed its
bound; before the game has ended every queued id is a player; in the lobby
the queue is empty; and a timer is scheduled only while a non-trivial game
is in progress. -/
def RoomInv (r : Room) : Prop :=
  r.players ≠ []
  ∧ (r.gameStarted = true → r.gameEnded = false →
      r.currentTurnIndex < r.turnQueue.length)
  ∧ (r.gameStarted = true → r.gameEnded = false →
      r.totalTurnsPlayed ≤ r.maxTurns)
  ∧ (r.gameEnded = false → ∀ id ∈ r.turnQueue, id ∈ keysP r.players)
  ∧ (r.gameStarted = false → r.gameEnded = false → r.turnQueue = [])
  ∧ (r.turnTimeoutId ≠ none →
      r.gameStarted = true ∧ r.gameEnded = false ∧ r.turnQueue ≠ [])

theorem roomInv_endGameState (r : Room) (hp : r.players ≠ []) :
    RoomInv (endGameState r) := by
  refine ⟨hp, ?_, ?_, ?_, ?_, ?_⟩ <;> simp [endGameState]

theorem roomInv_startNextTurn (fuel : Nat) (r : Room) (h : RoomInv r) :
    RoomInv (startNextTurn fuel r).1 := by
  induction fuel generalizing r with
  | zero => simpa [startNextTurn] using h
  | succ n ih =>
    rw [startNextTurn]
    split
    · exact h
    next hguard =>
      push_neg at hguard
      obtain ⟨hend, hstart, hqne⟩ := hguard
      simp only [Bool.not_eq_true] at hend
      simp only [Bool.not_eq_false] at hstart
      dsimp only
      split
      next hmax => exact roomInv_endGameState _ h.1
      next hmax =>
        push_neg at hmax
        split
        next pid hpid =>
          split
          next hlook =>
            split
            next hq => exact roomInv_endGameState _ h.1
            next hq =>
              apply ih
              have hlen : 0 < (r.turnQueue.filter (fun id => id ≠ pid)).length :=
                List.length_pos.2 hq
              refine ⟨h.1, ?_, ?_, ?_, ?_, ?_⟩
              · intro _ _
                exact Nat.mod_lt _ hlen
              · intro _ _
                exact hmax
              · intro hge id hid
                have := List.mem_of_mem_filter hid
                exact h.2.2.2.1 hend id this
              · intro hgs
                simp [hstart] at hgs
              · intro htimer
                simp at htimer
          next p hp =>
            split
            next hmusic =>
              apply ih
              have hlen : 0 < r.turnQueue.length := List.length_pos.2 hqne
              refine ⟨h.1, ?_, ?_, ?_, ?_, ?_⟩
              · intro _ _
                exact Nat.mod_lt _ hlen
              · intro _ _
                exact hmax
              · intro hge id hid
                exact h.2.2.2.1 hend id hid
              · intro hgs
                simp [hstart] at hgs
              · intro htimer
                simp at htimer
            next hmusic =>
              have hidx : r.currentTurnIndex < r.turnQueue.length :=
                List.get?_eq_some.1 hpid |>.1
              refine ⟨h.1, ?_, ?_, ?_, ?_, ?_⟩
              · intro _ _
                exact hidx
              · intro _ _
                exact hmax
              · intro hge id hid
                exact h.2.2.2.1 hend id hid
              · intro hgs
                simp [hstart] at hgs
              · intro _
                exact ⟨hstart, hend, hqne⟩
        next hpid =>
          apply ih
          have hlen : 0 < r.turnQueue.length := List.length_pos.2 hqne
          refine ⟨h.1, ?_, ?_, ?_, ?_, ?_⟩
          · intro _ _
            exact Nat.mod_lt _ hlen
          · intro _ _
            exact hmax
          · intro hge id hid
            exact h.2.2.2.1 hend id hid
          · intro hgs
            simp [hstart] at hgs
          · intro htimer
            simp at htimer

theorem roomInv_joinRoomH (r : Room) (sid nick : String) (h : RoomInv r) :
    RoomInv (joinRoomH r sid nick).1 := by
  rw [joinRoomH]
  split
  · exact h
  split
  · exact h
  split
  · exact h
  refine ⟨setP_ne_nil _ _ _, h.2.1, h.2.2.1, ?_, h.2.2.2.2.1, h.2.2.2.2.2⟩
  intro hge id hid
  exact mem_keysP_setP _ _ _ _ (h.2.2.2.1 hge id hid)

theorem roomInv_submitSongH (r : Room) (sid url : String) (startT : Nat)
    (title artist : String) (h : RoomInv r) :
    RoomInv (submitSongH r sid url startT title artist).1 := by
  rw [submitSongH]
  split
  · exact h
  split
  · exact h
  split
  next hlook => exact h
  next p hp =>
    refine ⟨updateP_ne_nil _ _ _ h.1, h.2.1, h.2.2.1, ?_, h.2.2.2.2.1, h.2.2.2.2.2⟩
    intro hge id hid
    rw [keysP_updateP]
    exact h.2.2.2.1 hge id hid

theorem roomInv_startGameSetup (r : Room) (dur : Nat) (coins : List Bool)
    (h : RoomInv r) : RoomInv (startGameSetup r dur coins) := by
  have hkeys : keysP r.players ≠ [] := by
    intro hc
    exact h.1 (by cases hm : r.players with
      | nil => rfl
      | cons kv rest => rw [hm] at hc; exact absurd hc (by simp [keysP]))
  have hlen : 0 < (randomSortShuffle (keysP r.players) coins).length := by
    rw [(randomSortShuffle_perm _ coins).length_eq]
    exact List.length_pos.2 hkeys
  refine ⟨mapValuesP_ne_nil _ _ h.1, ?_, ?_, ?_, ?_, ?_⟩
  · intro _ _
    simpa [startGameSetup] using hlen
  · intro _ _
    exact Nat.zero_le _
  · intro _ id hid
    simp only [startGameSetup] at hid ⊢
    rw [keysP_mapValuesP]
    exact ((randomSortShuffle_perm _ coins).mem_iff).1 hid
  · intro hgs
    simp [startGameSetup] at hgs
  · intro htimer
    simp [startGameSetup] at htimer

theorem roomInv_startGameH (fuel : Nat) (r : Room) (sid : String) (dur : Int)
    (coins : List Bool) (h : RoomInv r) :
    RoomInv (startGameH fuel r sid dur coins).1 := by
  rw [startGameH]
  split
  · exact h
  split
  · exact h
  split
  · exact h
  split
  · exact h
  split
  · exact h
  exact roomInv_startNextTurn fuel _ (roomInv_startGameSetup r dur.toNat coins h)

theorem roomInv_nextTurnH (fuel : Nat) (r : Room) (sid : String) (h : RoomInv r) :
    RoomInv (nextTurnH fuel r sid).1 := by
  rw [nextTurnH]
  split
  · exact h
  split
  · exact h
  split
  · exact h
  next h1 h2 h3 =>
    simp only [Bool.not_eq_false] at h2
    simp only [Bool.not_eq_true] at h3
    apply roomInv_startNextTurn
    have hlen : 0 < r.turnQueue.length := lt_of_le_of_lt (Nat.zero_le _) (h.2.1 h2 h3)
    refine ⟨mapValuesP_ne_nil _ _ h.1, ?_, ?_, ?_, ?_, ?_⟩
    · intro _ _
      exact Nat.mod_lt _ hlen
    · intro _ _
      exact h.2.2.1 h2 h3
    · intro hge id hid
      rw [keysP_clearGuessFlags]
      exact h.2.2.2.1 h3 id hid
    · intro hgs
      simp [h2] at hgs
    · intro htimer
      simp at htimer

theorem roomInv_resetGameH (r : Room) (sid : String) (h : RoomInv r) :
    RoomInv (resetGameH r sid).1 := by
  rw [resetGameH]
  split
  · exact h
  refine ⟨mapValuesP_ne_nil _ _ h.1, ?_, ?_, ?_, ?_, ?_⟩ <;> simp

theorem roomInv_timerFires (fuel : Nat) (r : Room) (h : RoomInv r) :
    RoomInv (timerFires fuel r).1 := by
  rw [timerFires]
  apply roomInv_startNextTurn
  refine ⟨mapValuesP_ne_nil _ _ h.1, ?_, ?_, ?_, ?_, ?_⟩
  · intro hgs hge
    have hlen : 0 < r.turnQueue.length := lt_of_le_of_lt (Nat.zero_le _) (h.2.1 hgs hge)
    exact Nat.mod_lt _ hlen
  · intro hgs hge
    exact h.2.2.1 hgs hge
  · intro hge id hid
    rw [keysP_clearGuessFlags]
    exact h.2.2.2.1 hge id hid
  · intro hgs hge
    exact h.2.2.2.2.1 hgs hge
  · intro htimer
    exact h.2.2.2.2.2 htimer

theorem roomInv_chatMessageH (r : Room) (sid msg : String) (h : RoomInv r) :
    RoomInv (chatMessageH r sid msg).1 := by
  rw [chatMessageH]
  split
  · exact h
  next sender hsender =>
    dsimp only
    split
    · exact h
    next owner hctx =>
      split <;>
      · refine ⟨updateP_ne_nil _ _ _ h.1, h.2.1, h.2.2.1, ?_,
          h.2.2.2.2.1, h.2.2.2.2.2⟩
        intro hge id hid
        rw [keysP_updateP]
        exact h.2.2.2.1 hge id hid

theorem roomInv_removeAdvance (r : Room) (sid host' : String) (h : RoomInv r)
    (hp : removeP r.players sid ≠ [])
    (hgs : r.gameStarted = true) (hge : r.gameEnded = false)
    (hq : r.turnQueue.filter (fun id => id ≠ sid) ≠ []) :
    RoomInv { players := removeP r.players sid, hostId := host'
              gameStarted := r.gameStarted, gameEnded := r.gameEnded
              turnQueue := r.turnQueue.filter (fun id => id ≠ sid)
              currentTurnIndex :=
                if (r.turnQueue.filter (fun id => id ≠ sid)).length ≤
                    r.currentTurnIndex then 0 else r.currentTurnIndex
              totalTurnsPlayed := r.totalTurnsPlayed, maxTurns := r.maxTurns
              turnDuration := r.turnDuration, turnTimeoutId := r.turnTimeoutId } := by
  have hql : 0 < (r.turnQueue.filter (fun id => id ≠ sid)).length :=
    List.length_pos.2 hq
  refine ⟨hp, ?_, ?_, ?_, ?_, ?_⟩
  · intro _ _
    split
    · exact hql
    next hle => exact not_le.1 hle
  · intro _ _
    exact h.2.2.1 hgs hge
  · intro hge2 id hid
    have hmem := List.mem_of_mem_filter hid
    have hne : id ≠ sid := by
      have := List.of_mem_filter hid
      simpa using this
    exact mem_keysP_removeP _ _ _ (h.2.2.2.1 hge id hmem) hne
  · intro h1 _
    simp [hgs] at h1
  · intro _
    exact ⟨hgs, hge, hq⟩

theorem roomInv_disconnectH (fuel : Nat) (r : Room) (sid : String) (r' : Room)
    (evs : List Event) (h : RoomInv r)
    (hd : disconnectH fuel r sid = some (r', evs)) : RoomInv r' := by
  rw [disconnectH] at hd
  split at hd
  · simp only [Option.some.injEq, Prod.mk.injEq] at hd
    obtain ⟨rfl, rfl⟩ := hd
    exact h
  next p hp =>
    dsimp only at hd
    split at hd
    · exact absurd hd (by simp)
    next hpne =>
      split at hd
      next hcond =>
        obtain ⟨hgs, hge, hhas⟩ := hcond
        split at hd
        next hq =>
          simp only [Option.some.injEq, Prod.mk.injEq] at hd
          obtain ⟨rfl, rfl⟩ := hd
          exact roomInv_endGameState _ hpne
        next hq =>
          split at hd
          next hcur =>
            simp only [Option.some.injEq, Prod.mk.injEq] at hd
            obtain ⟨rfl, rfl⟩ := hd
            exact roomInv_startNextTurn _ _
              (roomInv_removeAdvance r sid _ h hpne hgs hge hq)
          next hcur =>
            simp only [Option.some.injEq, Prod.mk.injEq] at hd
            obtain ⟨rfl, rfl⟩ := hd
            exact roomInv_removeAdvance r sid _ h hpne hgs hge hq
      next hcond =>
        simp only [Option.some.injEq, Prod.mk.injEq] at hd
        obtain ⟨rfl, rfl⟩ := hd
        refine ⟨hpne, h.2.1, h.2.2.1, ?_, h.2.2.2.2.1, h.2.2.2.2.2⟩
        intro hge id hid
        by_cases hgs : r.gameStarted = true
        · have hhas : ¬(queueHas r.turnQueue sid = true) := fun hqh =>
            hcond ⟨hgs, hge, hqh⟩
          have hsid : sid ∉ r.turnQueue := by
            simpa [queueHas] using hhas
          exact mem_keysP_removeP _ _ _ (h.2.2.2.1 hge id hid)
            (fun hc => hsid (hc ▸ hid))
        · have hgs' : r.gameStarted = false := by
            simpa [Bool.not_eq_true] using hgs
          rw [h.2.2.2.2.1 hgs' hge] at hid
          cases hid

theorem reachable_roomInv {r : Room} (h : Reachable r) : RoomInv r := by
  induction h with
  | init sid nick hne hlen =>
    refine ⟨?_, ?_, ?_, ?_, ?_, ?_⟩ <;> simp [initRoom]
  | step hr hs ih =>
    cases hs with
    | joinRoom sid nick rr heq =>
      exact heq ▸ roomInv_joinRoomH _ sid nick ih
    | submitSong sid url startT title artist rr heq =>
      exact heq ▸ roomInv_submitSongH _ sid url startT title artist ih
    | startGame fuel sid dur coins rr heq =>
      exact heq ▸ roomInv_startGameH fuel _ sid dur coins ih
    | nextTurn fuel sid rr heq =>
      exact heq ▸ roomInv_nextTurnH fuel _ sid ih
    | resetGame sid rr heq =>
      exact heq ▸ roomInv_resetGameH _ sid ih
    | chatMessage sid msg rr heq =>
      exact heq ▸ roomInv_chatMessageH _ sid msg ih
    | disconnect _ _ _ _ heq =>
      exact roomInv_disconnectH _ _ _ _ _ ih heq
    | timerExpire fuel rr hpend heq =>
      exact heq ▸ roomInv_timerFires fuel _ ih

/-! ## Reachability of the concrete executions -/

theorem reachable_roomB : Reachable roomB :=
  Reachable.step (Reachable.init "s1" "alice" (by decide) (by decide))
    (Step.submitSong roomA "s1" "u1" 0 "hello" "adele" roomB rfl)

theorem reachable_roomC : Reachable roomC :=
  Reachable.step reachable_roomB (Step.startGame roomB 5 "s1" 30 [] roomC rfl)

theorem reachable_roomD : Reachable roomD :=
  Reachable.step reachable_roomC (Step.nextTurn roomC 5 "s1" roomD rfl)

theorem reachable_t3 : Reachable t3 :=
  Reachable.step
    (Reachable.step
      (Reachable.step (Reachable.init "s1" "alice" (by decide) (by decide))
        (Step.joinRoom roomA "s2" "bob" t1 rfl))
      (Step.submitSong t1 "s1" "u1" 0 "hello" "adele" t2 rfl))
    (Step.submitSong t2 "s2" "u2" 0 "toxic" "britney spears" t3 rfl)

theorem reachable_t4 : Reachable t4 :=
  Reachable.step reachable_t3 (Step.startGame t3 5 "s1" 30 [true] t4 rfl)

theorem reachable_t5 : Reachable t5 :=
  Reachable.step reachable_t4 (Step.nextTurn t4 5 "s1" t5 rfl)

theorem reachable_t6 : Reachable t6 :=
  Reachable.step reachable_t5 (Step.nextTurn t5 5 "s1" t6 rfl)

theorem reachable_t7 : Reachable t7 :=
  Reachable.step reachable_t6 (Step.disconnect t6 5 "s2" t7 t7evs rfl)

theorem reachable_u5 : Reachable u5 :=
  Reachable.step
    (Reachable.step
      (Reachable.step
        (Reachable.step
          (Reachable.step (Reachable.init "s1" "alice" (by decide) (by decide))
            (Step.joinRoom roomA "s2" "bob" u1 rfl))
          (Step.joinRoom u1 "s3" "carol" u2 rfl))
        (Step.submitSong u2 "s1" "u1" 0 "hello" "adele" u3 rfl))
      (Step.submitSong u3 "s2" "u2" 0 "toxic" "britney spears" u4 rfl))
    (Step.submitSong u4 "s3" "u3" 0 "rolling in the deep" "adele" u5 rfl)

theorem reachable_u6 : Reachable u6 :=
  Reachable.step reachable_u5 (Step.startGame u5 6 "s1" 30 [true, true] u6 rfl)

theorem reachable_u8 : Reachable u8 :=
  Reachable.step
    (Reachable.step reachable_u6 (Step.nextTurn u6 6 "s1" u7 rfl))
    (Step.nextTurn u7 6 "s1" u8 rfl)

/-! ## Claim theorems -/

/-- C1: for every reachable room state, whenever the game is in progress
(`gameStarted` and not `gameEnded`), `currentTurnIndex` is strictly below
the length of `turnQueue`; reachability quantifies over every operation
that mutates the index or the queue (start-game, next-turn, turn-advance
with its stale-entry and no-track retry paths, disconnect handling, the
timer, chat and reset). -/
theorem C1_turn_index_in_bounds (r : Room) (h : Reachable r)
    (hs : r.gameStarted = true) (he : r.gameEnded = false) :
    r.currentTurnIndex < r.turnQueue.length :=
  (reachable_roomInv h).2.1 hs he

/-- Witness for C1 at the concrete reachable in-progress room `t4`. -/
theorem C1_turn_index_in_bounds_witness :
    Reachable t4 ∧ t4.gameStarted = true ∧ t4.gameEnded = false
    ∧ t4.currentTurnIndex < t4.turnQueue.length :=
  ⟨reachable_t4, rfl, rfl, C1_turn_index_in_bounds t4 reachable_t4 rfl rfl⟩

/-- C2 (amended): while the game is in progress, `totalTurnsPlayed` never
exceeds `maxTurns`, and once `totalTurnsPlayed` reaches `maxTurns` the next
invocation of turn-advance ends the game (`gameEnded = true`,
`gameStarted = false`) and broadcasts the final scores.  (In the resulting
ended state `totalTurnsPlayed` equals `maxTurns + 1`, which is why the
bound cannot hold in every reachable state.) -/
theorem C2_turn_budget (r : Room) (fuel : Nat) (h : Reachable r)
    (hs : r.gameStarted = true) (he : r.gameEnded = false) :
    r.totalTurnsPlayed ≤ r.maxTurns
    ∧ (r.totalTurnsPlayed = r.maxTurns →
        (startNextTurn (fuel + 1) r).1.gameEnded = true
        ∧ (startNextTurn (fuel + 1) r).1.gameStarted = false
        ∧ Event.gameEndedEv (scoresOf r.players) ∈ (startNextTurn (fuel + 1) r).2) := by
  have hinv := reachable_roomInv h
  refine ⟨hinv.2.2.1 hs he, ?_⟩
  intro heq
  have hqne : r.turnQueue ≠ [] :=
    List.ne_nil_of_length_pos (lt_of_le_of_lt (Nat.zero_le _) (hinv.2.1 hs he))
  rw [startNextTurn]
  rw [if_neg (by simp [hs, he, hqne])]
  dsimp only
  rw [if_pos (show r.maxTurns < r.totalTurnsPlayed + 1 by omega)]
  exact ⟨rfl, rfl, List.mem_cons_self _ _⟩

/-- Witness for C2's amended theorem at `t5` (turn 2 of 2, so the inner
implication fires as well). -/
theorem C2_turn_budget_witness :
    Reachable t5 ∧ t5.gameStarted = true ∧ t5.gameEnded = false
    ∧ (t5.totalTurnsPlayed ≤ t5.maxTurns
      ∧ (t5.totalTurnsPlayed = t5.maxTurns →
          (startNextTurn 2 t5).1.gameEnded = true
          ∧ (startNextTurn 2 t5).1.gameStarted = false
          ∧ Event.gameEndedEv (scoresOf t5.players) ∈ (startNextTurn 2 t5).2)) :=
  ⟨reachable_t5, rfl, rfl, C2_turn_budget t5 1 reachable_t5 rfl rfl⟩

/-- Counterexample to C2 as stated: `roomD` is reachable (single-player
game whose only turn was skipped) and its `totalTurnsPlayed = 2` exceeds
`maxTurns = 1` — the max-turns ending path of `startNextTurn` increments
the counter past the bound and that state persists after the game ends. -/
theorem C2_cex_turns_exceed_max :
    Reachable roomD ∧ roomD.maxTurns < roomD.totalTurnsPlayed :=
  ⟨reachable_roomD, by decide⟩

/-- C8 (amended): in every reachable state that is not in the Ended phase
(Lobby or InProgress), `turnQueue` contains only connection ids present in
the players map.  (In the Ended phase the containment can fail, because the
disconnect handler prunes the queue only while
`gameStarted && !gameEnded`.) -/
theorem C8_queue_ids_are_players (r : Room) (h : Reachable r)
    (he : r.gameEnded = false) :
    ∀ id ∈ r.turnQueue, id ∈ keysP r.players :=
  (reachable_roomInv h).2.2.2.1 he

/-- Witness for C8's amended theorem at the in-progress room `t4`. -/
theorem C8_queue_ids_are_players_witness :
    Reachable t4 ∧ t4.gameEnded = false
    ∧ (∀ id ∈ t4.turnQueue, id ∈ keysP t4.players) :=
  ⟨reachable_t4, rfl, C8_queue_ids_are_players t4 reachable_t4 rfl⟩

/-- Counterexample to C8 as stated ("in every phase"): `t7` is reachable —
a two-player game ran to its end and then `"s2"` disconnected — and in that
Ended state the turn queue still contains `"s2"` although `"s2"` is no
longer in the players map. -/
theorem C8_cex_stale_queue_in_ended_phase :
    Reachable t7 ∧ "s2" ∈ t7.turnQueue ∧ "s2" ∉ keysP t7.players :=
  ⟨reachable_t7, by decide, by decide⟩

/-- Helper for C7: the per-player reset of `reset-game` produces exactly
the join-time player record with the same nickname. -/
theorem mapValuesP_resetPlayer (m : PlayerMap) :
    mapValuesP m resetPlayer = m.map (fun kv => (kv.1, freshPlayer kv.2.nickname)) := by
  induction m with
  | nil => rfl
  | cons kv rest ih =>
    obtain ⟨a, p⟩ := kv
    simp only [mapValuesP, List.map_cons, ih]
    simp [resetPlayer, freshPlayer]

/-- C6 (amended): `reset-game` succeeds exactly when the requester is the
host — in any phase, including Lobby and InProgress, where it also resets
the room; a non-host request is rejected with an error returned only to the
requester (no broadcast) and the room unchanged.  There is no
MustEndFirst-style phase check. -/
theorem C6_reset_requires_host_only (r : Room) (sid : String) :
    ((resetGameH r sid).2.2 = true ↔ sid = r.hostId)
    ∧ (sid ≠ r.hostId → (resetGameH r sid).1 = r ∧ (resetGameH r sid).2.1 = [])
    ∧ (sid = r.hostId → (resetGameH r sid).1.gameStarted = false
        ∧ (resetGameH r sid).1.gameEnded = false
        ∧ (resetGameH r sid).1.turnQueue = []) := by
  by_cases h : sid = r.hostId
  · rw [resetGameH, if_neg (fun hc => hc h)]
    exact ⟨by simp [h], fun hc => absurd h hc, fun _ => ⟨rfl, rfl, rfl⟩⟩
  · rw [resetGameH, if_pos h]
    exact ⟨by simp [h], fun _ => ⟨rfl, rfl⟩, fun hc => absurd hc h⟩

/-- Counterexample to C6 as stated: in the reachable room `t4` the game is
in progress, yet the host's reset-game succeeds and mutates the room state
(no MustEndFirst-class rejection exists in the handler). -/
theorem C6_cex_reset_during_game :
    Reachable t4 ∧ t4.gameStarted = true ∧ t4.gameEnded = false
    ∧ (resetGameH t4 "s1").2.2 = true
    ∧ (resetGameH t4 "s1").1 ≠ t4 :=
  ⟨reachable_t4, rfl, rfl, by decide, by decide⟩

/-- C7: for a room in the Ended phase, a successful host reset returns
every player to `hasUploaded = false`, `score = 0` with all submitted track
data cleared, empties the turn queue, zeroes the counters and returns to
the Lobby phase: the resulting state is exactly a freshly created room with
the same players (`specFreshRoom`). -/
theorem C7_reset_round_trip (r : Room) (sid : String)
    (_hend : r.gameEnded = true) (hhost : sid = r.hostId) :
    (resetGameH r sid).2.2 = true ∧ (resetGameH r sid).1 = specFreshRoom r := by
  rw [resetGameH, if_neg (fun hc => hc hhost)]
  refine ⟨rfl, ?_⟩
  rw [specFreshRoom]
  simp [Room.mk.injEq, mapValuesP_resetPlayer]

/-- Witness for C7 at the concrete ended two-player room `t6`. -/
theorem C7_reset_round_trip_witness :
    t6.gameEnded = true ∧ "s1" = t6.hostId
    ∧ ((resetGameH t6 "s1").2.2 = true ∧ (resetGameH t6 "s1").1 = specFreshRoom t6) :=
  ⟨rfl, rfl, C7_reset_round_trip t6 "s1" rfl rfl⟩

/-- Lookup of the mutated key after an in-place player update. -/
theorem exists_lookupP_updateP (m : PlayerMap) (sid : String)
    (f : Player → Player) (p : Player) (hp : lookupP m sid = some p)
    (Q : Player → Prop) (hq : Q (f p)) :
    ∃ p', lookupP (updateP m sid f) sid = some p' ∧ Q p' :=
  ⟨f p, by rw [lookupP_updateP_self, hp]; rfl, hq⟩

/-- C10: a chat-message event can change nothing in the room state except
the sending player's score (which grows by at most 2) and the sending
player's per-turn guess flags: the phase flags, turn queue, index,
counters, timer, host and every other player's record are unchanged; if
the sender is not in the room, nothing changes at all. -/
theorem C10_chat_frame (r : Room) (sid msg : String) :
    (chatMessageH r sid msg).1.hostId = r.hostId
    ∧ (chatMessageH r sid msg).1.gameStarted = r.gameStarted
    ∧ (chatMessageH r sid msg).1.gameEnded = r.gameEnded
    ∧ (chatMessageH r sid msg).1.turnQueue = r.turnQueue
    ∧ (chatMessageH r sid msg).1.currentTurnIndex = r.currentTurnIndex
    ∧ (chatMessageH r sid msg).1.totalTurnsPlayed = r.totalTurnsPlayed
    ∧ (chatMessageH r sid msg).1.maxTurns = r.maxTurns
    ∧ (chatMessageH r sid msg).1.turnDuration = r.turnDuration
    ∧ (chatMessageH r sid msg).1.turnTimeoutId = r.turnTimeoutId
    ∧ keysP (chatMessageH r sid msg).1.players = keysP r.players
    ∧ (∀ k, k ≠ sid →
        lookupP (chatMessageH r sid msg).1.players k = lookupP r.players k)
    ∧ (∀ p, lookupP r.players sid = some p →
        ∃ p', lookupP (chatMessageH r sid msg).1.players sid = some p'
          ∧ p.score ≤ p'.score ∧ p'.score ≤ p.score + 2
          ∧ p'.nickname = p.nickname ∧ p'.musicUrl = p.musicUrl
          ∧ p'.musicStartTime = p.musicStartTime
          ∧ p'.songTitle = p.songTitle ∧ p'.songArtist = p.songArtist
          ∧ p'.hasUploaded = p.hasUploaded
          ∧ p'.lastGuessTime = p.lastGuessTime)
    ∧ (lookupP r.players sid = none → (chatMessageH r sid msg).1 = r) := by
  rw [chatMessageH]
  split
  next hnone =>
    refine ⟨rfl, rfl, rfl, rfl, rfl, rfl, rfl, rfl, rfl, rfl,
      fun k _ => rfl, fun p hp => ?_, fun _ => rfl⟩
    simp [hnone] at hp
  next sender hsender =>
    dsimp only
    split
    · refine ⟨rfl, rfl, rfl, rfl, rfl, rfl, rfl, rfl, rfl, rfl,
        fun k _ => rfl, fun p hp => ?_, fun hc => ?_⟩
      · rw [hsender] at hp
        injection hp with hp'
        subst hp'
        exact ⟨sender, hsender, le_refl _, Nat.le_add_right _ _,
          rfl, rfl, rfl, rfl, rfl, rfl, rfl⟩
      · simp [hsender] at hc
    next owner hctx =>
      split <;>
      · refine ⟨rfl, rfl, rfl, rfl, rfl, rfl, rfl, rfl, rfl,
          keysP_updateP r.players sid _,
          fun k hk => lookupP_updateP_ne r.players sid k _ hk,
          fun p hp => ?_, fun hc => ?_⟩
        · rw [hsender] at hp
          injection hp with hp'
          subst hp'
          apply exists_lookupP_updateP r.players sid _ sender hsender
          refine ⟨?_, ?_, rfl, rfl, rfl, rfl, rfl, rfl, rfl⟩
          · dsimp only
            split <;> split <;> omega
          · dsimp only
            split <;> split <;> omega
        · simp [hsender] at hc

/-- `startNextTurn` never broadcasts a `show-answer` event, in any branch
(turn scheduled, game over, stale-entry retry, no-track skip). -/
theorem showAnswer_not_in_startNextTurn (fuel : Nat) (r : Room) :
    Event.showAnswer ∉ (startNextTurn fuel r).2 := by
  induction fuel generalizing r with
  | zero => simp [startNextTurn]
  | succ n ih =>
    rw [startNextTurn]
    split
    · simp
    · dsimp only
      split
      · simp [getRoomUpdate]
      · split
        · split
          · split
            · simp [getRoomUpdate]
            · exact ih _
          · split
            · exact ih _
            · simp
        · exact ih _

/-- C4 (amended): when the per-turn timer fires, and likewise when a valid
host skip (`next-turn`) is processed, the room resets every player's
per-turn guess flags and advances `currentTurnIndex` modulo the queue
length immediately, re-entering `startNextTurn` (the skip additionally
cancels any pending timer first); no reveal-answer (`show-answer`)
broadcast and no 5-second reveal window exist on the server — the trace
of both triggers never contains a `show-answer` event. -/
theorem C4_skip_and_timer_semantics (r : Room) (fuel : Nat) (sid : String)
    (hhost : sid = r.hostId) (hs : r.gameStarted = true)
    (he : r.gameEnded = false) :
    (nextTurnH fuel r sid).1 =
      (startNextTurn fuel { advanceTurnState r with turnTimeoutId := none }).1
    ∧ (nextTurnH fuel r sid).2.1 =
      (startNextTurn fuel { advanceTurnState r with turnTimeoutId := none }).2
    ∧ (nextTurnH fuel r sid).2.2 = true
    ∧ timerFires fuel r = startNextTurn fuel (advanceTurnState r)
    ∧ Event.showAnswer ∉ (nextTurnH fuel r sid).2.1
    ∧ Event.showAnswer ∉ (timerFires fuel r).2 := by
  rw [nextTurnH, if_neg (fun hc => hc hhost), if_neg (by simp [hs]),
    if_neg (by simp [he])]
  dsimp only
  refine ⟨rfl, rfl, rfl, rfl, ?_, ?_⟩
  · exact showAnswer_not_in_startNextTurn fuel _
  · rw [timerFires]
    exact showAnswer_not_in_startNextTurn fuel _

/-- Witness for C4's amended theorem at the reachable in-progress room
`t4` with its host `"s1"`. -/
theorem C4_skip_and_timer_semantics_witness :
    ("s1" = t4.hostId ∧ t4.gameStarted = true ∧ t4.gameEnded = false)
    ∧ ((nextTurnH 5 t4 "s1").1 =
        (startNextTurn 5 { advanceTurnState t4 with turnTimeoutId := none }).1
      ∧ (nextTurnH 5 t4 "s1").2.1 =
        (startNextTurn 5 { advanceTurnState t4 with turnTimeoutId := none }).2
      ∧ (nextTurnH 5 t4 "s1").2.2 = true
      ∧ timerFires 5 t4 = startNextTurn 5 (advanceTurnState t4)
      ∧ Event.showAnswer ∉ (nextTurnH 5 t4 "s1").2.1
      ∧ Event.showAnswer ∉ (timerFires 5 t4).2) :=
  ⟨⟨rfl, rfl, rfl⟩, C4_skip_and_timer_semantics t4 5 "s1" rfl rfl rfl⟩

/-- Counterexample to C4 as stated: in the reachable room `t4` a timer is
pending; the host's accepted skip and the timer's own firing broadcast no
reveal-answer event at all (`show-answer` is absent from both traces), and
the `correctThisTurn` flags are reset immediately rather than after a
5-second reveal window. -/
theorem C4_cex_no_reveal_broadcast :
    Reachable t4 ∧ t4.turnTimeoutId ≠ none
    ∧ (nextTurnH 5 t4 "s1").2.2 = true
    ∧ Event.showAnswer ∉ (nextTurnH 5 t4 "s1").2.1
    ∧ Event.showAnswer ∉ (timerFires 5 t4).2 :=
  ⟨reachable_t4, by decide, by decide, by decide, by decide⟩

/-- C5 (amended): on every successful start-game the handler sets
`turnQueue` to a permutation of the room's player connection ids — produced
by sorting with a random comparator, which is *not* a uniform shuffle —
and sets `currentTurnIndex = 0`, `totalTurnsPlayed = 0` and
`maxTurns = |turnQueue|` before invoking turn-advance. -/
theorem C5_start_game_setup (fuel : Nat) (r : Room) (sid : String) (dur : Int)
    (coins : List Bool) (hhost : sid = r.hostId)
    (hup : (valuesP r.players).all (fun p => p.hasUploaded) = true)
    (hs : r.gameStarted = false) (he : r.gameEnded = false)
    (hdur : 10 ≤ dur ∧ dur ≤ 120) :
    (startGameH fuel r sid dur coins).2.2 = true
    ∧ (startGameH fuel r sid dur coins).1 =
        (startNextTurn fuel (startGameSetup r dur.toNat coins)).1
    ∧ (startGameSetup r dur.toNat coins).turnQueue.Perm (keysP r.players)
    ∧ (startGameSetup r dur.toNat coins).currentTurnIndex = 0
    ∧ (startGameSetup r dur.toNat coins).totalTurnsPlayed = 0
    ∧ (startGameSetup r dur.toNat coins).maxTurns =
        (startGameSetup r dur.toNat coins).turnQueue.length := by
  rw [startGameH, if_neg (fun hc => hc hhost), if_neg (by simp [hup]),
    if_neg (by simp [hs]), if_neg (by simp [he]), if_neg (not_not_intro hdur)]
  exact ⟨rfl, rfl, randomSortShuffle_perm _ _, rfl, rfl, rfl⟩

/-- Witness for C5's amended theorem at the three-player lobby `u5`. -/
theorem C5_start_game_setup_witness :
    ("s1" = u5.hostId
      ∧ (valuesP u5.players).all (fun p => p.hasUploaded) = true
      ∧ u5.gameStarted = false ∧ u5.gameEnded = false
      ∧ ((10 : Int) ≤ 30 ∧ (30 : Int) ≤ 120))
    ∧ ((startGameH 6 u5 "s1" 30 [true, true]).2.2 = true
      ∧ (startGameH 6 u5 "s1" 30 [true, true]).1 =
          (startNextTurn 6 (startGameSetup u5 (Int.toNat 30) [true, true])).1
      ∧ (startGameSetup u5 (Int.toNat 30) [true, true]).turnQueue.Perm
          (keysP u5.players)
      ∧ (startGameSetup u5 (Int.toNat 30) [true, true]).currentTurnIndex = 0
      ∧ (startGameSetup u5 (Int.toNat 30) [true, true]).totalTurnsPlayed = 0
      ∧ (startGameSetup u5 (Int.toNat 30) [true, true]).maxTurns =
          (startGameSetup u5 (Int.toNat 30) [true, true]).turnQueue.length) :=
  ⟨⟨rfl, by decide, rfl, rfl, by decide, by decide⟩,
    C5_start_game_setup 6 u5 "s1" 30 [true, true] rfl (by decide) rfl rfl
      ⟨by decide, by decide⟩⟩

/-- Counterexample to C5 as stated (uniform randomness): under the
fair-coin model of the `Math.random() - 0.5` comparator, all eight coin
sequences of length 3 are equally likely, yet in the reachable three-player
lobby `u5`, start-game produces the queue `["s1", "s2", "s3"]` for two of
the eight sequences but `["s2", "s1", "s3"]` for only one — the two
permutations have probabilities 2/8 and 1/8, so not every permutation of
the player set is equally likely.  (Every one of the eight runs is a
successful start.) -/
theorem C5_cex_shuffle_not_uniform :
    Reachable u5 ∧ keysP u5.players = ["s1", "s2", "s3"]
    ∧ (∀ cs ∈ boolLists 3, (startGameH 6 u5 "s1" 30 cs).2.2 = true)
    ∧ (boolLists 3).countP
        (fun cs => (startGameH 6 u5 "s1" 30 cs).1.turnQueue =
          ["s1", "s2", "s3"]) = 2
    ∧ (boolLists 3).countP
        (fun cs => (startGameH 6 u5 "s1" 30 cs).1.turnQueue =
          ["s2", "s1", "s3"]) = 1 :=
  ⟨reachable_u5, by decide, by decide, by decide, by decide⟩

/-- Helper for C3: when the guessing preconditions hold (game running,
sender present and not the music owner, owner's title and artist
resolved), the chat handler mutates exactly the sender, crediting title
and artist by normalized substring containment guarded by the per-turn
flags. -/
theorem chatMessageH_active (r : Room) (sid oid m : String)
    (sender owner : Player)
    (hs : r.gameStarted = true) (he : r.gameEnded = false)
    (hq : r.turnQueue ≠ [])
    (hoid : r.turnQueue.get? r.currentTurnIndex = some oid)
    (hne : sid ≠ oid)
    (hsender : lookupP r.players sid = some sender)
    (howner : lookupP r.players oid = some owner)
    (ht : owner.songTitle ≠ none) (ha : owner.songArtist ≠ none) :
    (chatMessageH r sid m).1 =
      { r with players := updateP r.players sid (fun _ =>
          { sender with
              score := sender.score
                + (if !sender.hasGuessedCorrectlyThisTurn.title
                      && decide (0 < (normalizeText (owner.songTitle.getD "")).length)
                      && strIncludes (normalizeText m)
                          (normalizeText (owner.songTitle.getD "")) then 1 else 0)
                + (if !sender.hasGuessedCorrectlyThisTurn.artist
                      && decide (0 < (normalizeText (owner.songArtist.getD "")).length)
                      && strIncludes (normalizeText m)
                          (normalizeText (owner.songArtist.getD "")) then 1 else 0)
              hasGuessedCorrectlyThisTurn :=
                { title := sender.hasGuessedCorrectlyThisTurn.title
                    || (!sender.hasGuessedCorrectlyThisTurn.title
                        && decide (0 < (normalizeText (owner.songTitle.getD "")).length)
                        && strIncludes (normalizeText m)
                            (normalizeText (owner.songTitle.getD "")))
                  artist := sender.hasGuessedCorrectlyThisTurn.artist
                    || (!sender.hasGuessedCorrectlyThisTurn.artist
                        && decide (0 < (normalizeText (owner.songArtist.getD "")).length)
                        && strIncludes (normalizeText m)
                            (normalizeText (owner.songArtist.getD ""))) } }) } := by
  rw [chatMessageH]
  rw [hsender]
  dsimp only
  rw [if_pos ⟨hs, he, hq⟩, hoid]
  dsimp only
  rw [if_pos hne, howner]
  dsimp only
  rw [if_pos ⟨ht, ha⟩]
  dsimp only
  split <;> rfl

/-- C3: for a chat message sent while the game is in progress by a player
who is not the current turn-holder, crediting uses lowercase-and-trim
normalization with full-substring containment of the correct title and,
independently, of the correct artist; each of title and artist is credited
at most once per turn per player and each credit adds exactly 1 point — in
particular, two messages from the same player in the same turn both
containing the correct title raise that player's score by exactly 1 in
total, not 2. -/
theorem C3_title_credited_once (r : Room) (sid oid m1 m2 : String)
    (sender owner : Player)
    (hs : r.gameStarted = true) (he : r.gameEnded = false)
    (hq : r.turnQueue ≠ [])
    (hoid : r.turnQueue.get? r.currentTurnIndex = some oid)
    (hne : sid ≠ oid)
    (hsender : lookupP r.players sid = some sender)
    (howner : lookupP r.players oid = some owner)
    (ht : owner.songTitle ≠ none) (ha : owner.songArtist ≠ none)
    (hflagT : sender.hasGuessedCorrectlyThisTurn.title = false)
    (htlen : 0 < (normalizeText (owner.songTitle.getD "")).length)
    (hm1 : strIncludes (normalizeText m1)
      (normalizeText (owner.songTitle.getD "")) = true)
    (hm2 : strIncludes (normalizeText m2)
      (normalizeText (owner.songTitle.getD "")) = true)
    (ha1 : strIncludes (normalizeText m1)
      (normalizeText (owner.songArtist.getD "")) = false)
    (ha2 : strIncludes (normalizeText m2)
      (normalizeText (owner.songArtist.getD "")) = false) :
    ∃ s1 s2 : Player,
      lookupP ((chatMessageH r sid m1).1).players sid = some s1
      ∧ s1.score = sender.score + 1
      ∧ s1.hasGuessedCorrectlyThisTurn.title = true
      ∧ lookupP ((chatMessageH (chatMessageH r sid m1).1 sid m2).1).players sid
          = some s2
      ∧ s2.score = sender.score + 1 := by
  have h1 := chatMessageH_active r sid oid m1 sender owner hs he hq hoid hne
    hsender howner ht ha
  have hbT1 : (!sender.hasGuessedCorrectlyThisTurn.title
      && decide (0 < (normalizeText (owner.songTitle.getD "")).length)
      && strIncludes (normalizeText m1)
          (normalizeText (owner.songTitle.getD ""))) = true := by
    rw [hflagT, hm1, decide_eq_true htlen]
    rfl
  have hbA1 : (!sender.hasGuessedCorrectlyThisTurn.artist
      && decide (0 < (normalizeText (owner.songArtist.getD "")).length)
      && strIncludes (normalizeText m1)
          (normalizeText (owner.songArtist.getD ""))) = false := by
    rw [ha1, Bool.and_false]
  have hlook1 : lookupP (chatMessageH r sid m1).1.players sid =
      some { sender with
              score := sender.score + 1,
              hasGuessedCorrectlyThisTurn :=
                { title := true,
                  artist := sender.hasGuessedCorrectlyThisTurn.artist } } := by
    rw [h1]
    dsimp only
    rw [lookupP_updateP_self, hsender]
    simp only [Option.map_some']
    rw [hbT1, hbA1, hflagT]
    simp
  have hs2 : (chatMessageH r sid m1).1.gameStarted = true := by
    rw [h1]; exact hs
  have he2 : (chatMessageH r sid m1).1.gameEnded = false := by
    rw [h1]; exact he
  have hq2 : (chatMessageH r sid m1).1.turnQueue ≠ [] := by
    rw [h1]; exact hq
  have hoid2 : (chatMessageH r sid m1).1.turnQueue.get?
      (chatMessageH r sid m1).1.currentTurnIndex = some oid := by
    rw [h1]; exact hoid
  have howner2 : lookupP (chatMessageH r sid m1).1.players oid = some owner := by
    rw [h1]
    dsimp only
    rw [lookupP_updateP_ne _ _ _ _ (Ne.symm hne)]
    exact howner
  have h2 := chatMessageH_active (chatMessageH r sid m1).1 sid oid m2 _ owner
    hs2 he2 hq2 hoid2 hne hlook1 howner2 ht ha
  have hbA2 : (!({ sender with
        score := sender.score + 1,
        hasGuessedCorrectlyThisTurn :=
          { title := true,
            artist := sender.hasGuessedCorrectlyThisTurn.artist } } :
        Player).hasGuessedCorrectlyThisTurn.artist
      && decide (0 < (normalizeText (owner.songArtist.getD "")).length)
      && strIncludes (normalizeText m2)
          (normalizeText (owner.songArtist.getD ""))) = false := by
    rw [ha2, Bool.and_false]
  have hlook2 : lookupP (chatMessageH (chatMessageH r sid m1).1 sid m2).1.players
      sid = some { sender with
              score := sender.score + 1,
              hasGuessedCorrectlyThisTurn :=
                { title := true,
                  artist := sender.hasGuessedCorrectlyThisTurn.artist } } := by
    rw [h2]
    dsimp only
    rw [lookupP_updateP_self, hlook1]
    simp only [Option.map_some']
    rw [hbA2]
    simp
  exact ⟨_, _, hlook1, rfl, rfl, hlook2, rfl⟩

/-- Witness for C3 in the reachable room `t4`: `"s2"` (bob) guesses the
title of `"s1"` (alice, `"hello"` by `"adele"`) twice in the same turn. -/
theorem C3_title_credited_once_witness :
    (t4.gameStarted = true ∧ t4.gameEnded = false ∧ t4.turnQueue ≠ []
      ∧ t4.turnQueue.get? t4.currentTurnIndex = some "s1"
      ∧ "s2" ≠ "s1"
      ∧ lookupP t4.players "s2" =
          some ((lookupP t4.players "s2").getD (freshPlayer ""))
      ∧ lookupP t4.players "s1" =
          some ((lookupP t4.players "s1").getD (freshPlayer ""))
      ∧ ((lookupP t4.players "s1").getD (freshPlayer "")).songTitle ≠ none
      ∧ ((lookupP t4.players "s1").getD (freshPlayer "")).songArtist ≠ none
      ∧ ((lookupP t4.players "s2").getD
          (freshPlayer "")).hasGuessedCorrectlyThisTurn.title = false
      ∧ 0 < (normalizeText (((lookupP t4.players "s1").getD
          (freshPlayer "")).songTitle.getD "")).length
      ∧ strIncludes (normalizeText "is it hello?")
          (normalizeText (((lookupP t4.players "s1").getD
            (freshPlayer "")).songTitle.getD "")) = true
      ∧ strIncludes (normalizeText "HELLO again")
          (normalizeText (((lookupP t4.players "s1").getD
            (freshPlayer "")).songTitle.getD "")) = true
      ∧ strIncludes (normalizeText "is it hello?")
          (normalizeText (((lookupP t4.players "s1").getD
            (freshPlayer "")).songArtist.getD "")) = false
      ∧ strIncludes (normalizeText "HELLO again")
          (normalizeText (((lookupP t4.players "s1").getD
            (freshPlayer "")).songArtist.getD "")) = false)
    ∧ (∃ s1 s2 : Player,
        lookupP ((chatMessageH t4 "s2" "is it hello?").1).players "s2" = some s1
        ∧ s1.score = ((lookupP t4.players "s2").getD (freshPlayer "")).score + 1
        ∧ s1.hasGuessedCorrectlyThisTurn.title = true
        ∧ lookupP ((chatMessageH (chatMessageH t4 "s2" "is it hello?").1 "s2"
            "HELLO again").1).players "s2" = some s2
        ∧ s2.score = ((lookupP t4.players "s2").getD (freshPlayer "")).score + 1) :=
  ⟨⟨rfl, rfl, by decide, by decide, by decide, by decide, by decide, by decide,
    by decide, by decide, by decide, by decide, by decide, by decide, by decide⟩,
    C3_title_credited_once t4 "s2" "s1" "is it hello?" "HELLO again"
      ((lookupP t4.players "s2").getD (freshPlayer ""))
      ((lookupP t4.players "s1").getD (freshPlayer ""))
      rfl rfl (by decide) (by decide) (by decide) (by decide) (by decide)
      (by decide) (by decide) (by decide) (by decide) (by decide) (by decide)
      (by decide) (by decide)⟩

/-- C9 (amended): in an in-progress three-player room whose current
turn-holder disconnects, provided the turn budget is not yet exhausted
(`totalTurnsPlayed < maxTurns`) and the remaining queued players have
tracks, the disconnect removes the player from the map and the queue,
leaves `maxTurns` unchanged, and advances the game so that one of the two
remaining players holds the turn.  (When `totalTurnsPlayed = maxTurns` the
game ends instead — see the counterexample.) -/
theorem C9_holder_disconnect (fuel : Nat) (r : Room) (sid : String)
    (hr : Reachable r)
    (hs : r.gameStarted = true) (he : r.gameEnded = false)
    (h3 : r.players.length = 3)
    (hcur : r.turnQueue.get? r.currentTurnIndex = some sid)
    (hnodupk : (keysP r.players).Nodup)
    (hother : ∃ o ∈ r.turnQueue, o ≠ sid)
    (hmusic : ∀ kv ∈ r.players, kv.2.musicUrl ≠ none)
    (hturns : r.totalTurnsPlayed < r.maxTurns) :
    ∃ r' evs, disconnectH (fuel + 1) r sid = some (r', evs)
      ∧ r'.players.length = 2
      ∧ r'.maxTurns = r.maxTurns
      ∧ r'.gameStarted = true ∧ r'.gameEnded = false
      ∧ ∃ h, r'.turnQueue.get? r'.currentTurnIndex = some h
          ∧ h ∈ keysP r'.players ∧ h ≠ sid := by
  have hinv := reachable_roomInv hr
  have hsidq : sid ∈ r.turnQueue := List.get?_mem hcur
  have hsidk : sid ∈ keysP r.players := hinv.2.2.2.1 he sid hsidq
  obtain ⟨p, hp⟩ := Option.isSome_iff_exists.1
    (lookupP_isSome_of_mem_keysP r.players sid hsidk)
  have hlen2 : (removeP r.players sid).length + 1 = r.players.length :=
    length_removeP_of_mem r.players sid hnodupk hsidk
  have hpne : removeP r.players sid ≠ [] := by
    intro hc
    rw [hc] at hlen2
    simp at hlen2
    omega
  have hhas : queueHas r.turnQueue sid = true := by
    simpa [queueHas] using hsidq
  obtain ⟨o, ho, hone⟩ := hother
  have hoq : o ∈ r.turnQueue.filter (fun id => id ≠ sid) :=
    List.mem_filter.2 ⟨ho, by simpa using hone⟩
  have hqne : r.turnQueue.filter (fun id => id ≠ sid) ≠ [] :=
    List.ne_nil_of_mem hoq
  have hql : 0 < (r.turnQueue.filter (fun id => id ≠ sid)).length :=
    List.length_pos.2 hqne
  rw [disconnectH, hp]
  dsimp only
  rw [if_neg hpne, if_pos ⟨hs, he, hhas⟩, if_neg hqne, if_pos hcur]
  set q := r.turnQueue.filter (fun id => id ≠ sid) with hqdef
  set idx := if q.length ≤ r.currentTurnIndex then 0 else r.currentTurnIndex
    with hidxdef
  have hidx : idx < q.length := by
    rw [hidxdef]
    split
    · exact hql
    next hle => exact not_le.1 hle
  obtain ⟨pid, hpid⟩ := Option.isSome_iff_exists.1
    (by rw [List.get?_eq_get hidx]; rfl : (q.get? idx).isSome)
  have hpidq : pid ∈ q := List.get?_mem hpid
  have hpidne : pid ≠ sid := by
    have := List.of_mem_filter hpidq
    simpa using this
  have hpidk : pid ∈ keysP (removeP r.players sid) :=
    mem_keysP_removeP r.players sid pid
      (hinv.2.2.2.1 he pid (List.mem_of_mem_filter hpidq)) hpidne
  obtain ⟨pp, hpp⟩ := Option.isSome_iff_exists.1
    (lookupP_isSome_of_mem_keysP (removeP r.players sid) pid hpidk)
  have hppmusic : pp.musicUrl ≠ none :=
    hmusic (pid, pp) (removeP_subset r.players sid (pid, pp) (lookupP_mem _ _ _ hpp))
  rw [startNextTurn]
  rw [if_neg (by simp [hs, he, hqne])]
  dsimp only
  rw [if_neg (show ¬ (r.maxTurns < r.totalTurnsPlayed + 1) by omega)]
  rw [hpid]
  dsimp only
  rw [hpp]
  dsimp only
  rw [if_neg hppmusic]
  refine ⟨_, _, rfl, ?_, rfl, hs, he, ⟨pid, ?_, hpidk, hpidne⟩⟩
  · dsimp only
    omega
  · dsimp only
    exact hpid

/-- Witness for C9's amended theorem: in the reachable three-player room
`u6` (turn 1 of 3, holder `"s1"`), the holder's disconnect advances the
game to a remaining player. -/
theorem C9_holder_disconnect_witness :
    (Reachable u6 ∧ u6.gameStarted = true ∧ u6.gameEnded = false
      ∧ u6.players.length = 3
      ∧ u6.turnQueue.get? u6.currentTurnIndex = some "s1"
      ∧ (keysP u6.players).Nodup
      ∧ (∃ o ∈ u6.turnQueue, o ≠ "s1")
      ∧ (∀ kv ∈ u6.players, kv.2.musicUrl ≠ none)
      ∧ u6.totalTurnsPlayed < u6.maxTurns)
    ∧ (∃ r' evs, disconnectH (5 + 1) u6 "s1" = some (r', evs)
        ∧ r'.players.length = 2
        ∧ r'.maxTurns = u6.maxTurns
        ∧ r'.gameStarted = true ∧ r'.gameEnded = false
        ∧ ∃ h, r'.turnQueue.get? r'.currentTurnIndex = some h
            ∧ h ∈ keysP r'.players ∧ h ≠ "s1") :=
  ⟨⟨reachable_u6, rfl, rfl, by decide, by decide, by decide, by decide,
    by decide, by decide⟩,
    C9_holder_disconnect 5 u6 "s1" reachable_u6 rfl rfl (by decide)
      (by decide) (by decide) (by decide) (by decide) (by decide)⟩

/-- Counterexample to C9 as stated: `u8` is a reachable in-progress
three-player room on its last turn (`totalTurnsPlayed = maxTurns = 3`)
whose holder is `"s3"`; when `"s3"` disconnects, the game ends
(`gameEnded = true`, `gameStarted = false`) instead of advancing to a
remaining player's turn. -/
theorem C9_cex_disconnect_on_last_turn :
    Reachable u8 ∧ u8.gameStarted = true ∧ u8.gameEnded = false
    ∧ u8.players.length = 3
    ∧ u8.totalTurnsPlayed = u8.maxTurns
    ∧ u8.turnQueue.get? u8.currentTurnIndex = some "s3"
    ∧ disconnectH 6 u8 "s3" = some (u9, u9evs)
    ∧ u9.gameEnded = true ∧ u9.gameStarted = false :=
  ⟨reachable_u8, rfl, rfl, by decide, by decide, by decide, rfl,
    by decide, by decide⟩
